import Mathlib

/-!
Verification of the appointment/queue view-model logic of the Smart e-National ID
frontend (`src/frontend/src/pages/Appointments.tsx`, `Dashboard.tsx`, the `MyQueue`
component, and the shared API client).

The embedding works over a model of the JavaScript date primitives the code uses:
`new Date(y, m, d, ...)` (local-time construction with component rollover and the
two-digit-year adjustment), `getFullYear`/`getMonth`/`getDate` (civil decomposition
of a day number), `String.prototype.split`, and `Number` on the component strings
produced by splitting date/time fields.  Instants are measured in minutes; a day is
1440 minutes.  Division is `Int./`, which is floor division for positive divisors,
matching JavaScript's `Math.floor`-style day arithmetic.
-/

/-- Day count since 1970-01-01 of a Gregorian calendar date (proleptic, civil
months `1..12`).  The `d` argument enters linearly, so out-of-range days roll
over exactly as JavaScript's `MakeDay` does. -/
def daysFromCivil (y m d : Int) : Int :=
  let y' : Int := if m ≤ 2 then y - 1 else y
  let era : Int := y' / 400
  let yoe : Int := y' - era * 400
  let mp : Int := if 2 < m then m - 3 else m + 9
  let doy : Int := (153 * mp + 2) / 5 + d - 1
  let doe : Int := yoe * 365 + yoe / 4 - yoe / 100 + doy
  era * 146097 + doe - 719468

/-- Gregorian calendar date `(year, month, day)` of a day count since 1970-01-01:
the model of JavaScript's `getFullYear` / `getMonth` / `getDate` getters (with the
month reported 1-based here; the 0-based `getMonth` is obtained by subtracting 1). -/
def civilFromDays (z : Int) : Int × Int × Int :=
  let z' : Int := z + 719468
  let era : Int := z' / 146097
  let doe : Int := z' - era * 146097
  let yoe : Int := (doe - doe / 1460 + doe / 36524 - doe / 146096) / 365
  let doy : Int := doe - (365 * yoe + yoe / 4 - yoe / 100)
  let mp : Int := (5 * doy + 2) / 153
  let d : Int := doy - (153 * mp + 2) / 5 + 1
  let m : Int := if mp < 10 then mp + 3 else mp - 9
  (if m ≤ 2 then yoe + era * 400 + 1 else yoe + era * 400, m, d)

/-- Gregorian leap-year rule. -/
def isLeapYear (y : Int) : Bool :=
  (y % 4 = 0 && y % 100 ≠ 0) || y % 400 = 0

/-- Number of days in month `m` of year `y`. -/
def daysInMonth (y m : Int) : Int :=
  if m = 2 then (if isLeapYear y then 29 else 28)
  else if m = 4 ∨ m = 6 ∨ m = 9 ∨ m = 11 then 30
  else 31

/-- The two-digit-year adjustment of the `Date(year, month, day, ...)`
constructor: integer years `0..99` are interpreted as `1900..1999`. -/
def jsAdjustYear (y : Int) : Int :=
  if 0 ≤ y ∧ y ≤ 99 then 1900 + y else y

/-- JavaScript `MakeDay(y, mIdx, d)`: `mIdx` is a 0-based month index that may
lie outside `0..11` (it rolls the year), and `d` may lie outside the month (it
rolls the day count). -/
def jsMakeDay (y mIdx d : Int) : Int :=
  daysFromCivil ((y * 12 + mIdx) / 12) ((y * 12 + mIdx) % 12 + 1) 1 + (d - 1)

/-- Day number of the local date constructed by `new Date(y, mIdx, d)`. -/
def jsDateDays (y mIdx d : Int) : Int :=
  jsMakeDay (jsAdjustYear y) mIdx d

/-- Time value, in minutes since the local epoch, of
`new Date(y, mIdx, d, h, mi)`.  Comparisons between `Date` objects compare
these time values. -/
def jsDateMinutes (y mIdx d h mi : Int) : Int :=
  jsDateDays y mIdx d * 1440 + (h * 60 + mi)

/-- Model of `String.prototype.split` on a single-character separator, over the
character list of the string: every occurrence separates, empty pieces are
kept, and the empty string yields one empty piece. -/
def splitCharList (sep : Char) : List Char → List (List Char)
  | [] => [[]]
  | c :: rest =>
    let r := splitCharList sep rest
    if c = sep then [] :: r
    else
      match r with
      | [] => [[c]]
      | h :: t => (c :: h) :: t

/-- JavaScript `s.split(sep)` for a one-character separator. -/
def jsSplit (s : String) (sep : Char) : List String :=
  (splitCharList sep s.data).map String.mk

/-- Accumulating decimal value of a digit string; `none` when a non-digit
occurs. -/
def digitsValAux : List Char → Nat → Option Nat
  | [], acc => some acc
  | c :: rest, acc =>
    if c.isDigit then digitsValAux rest (acc * 10 + (c.toNat - 48)) else none

/-- The ECMAScript whitespace characters `Number` trims before conversion
(WhiteSpace and LineTerminator: tab through carriage return, space, no-break
space, Ogham space mark, the Unicode space separators, line and paragraph
separators, narrow no-break space, medium mathematical space, ideographic
space, and the byte-order mark). -/
def jsWhitespace (c : Char) : Bool :=
  decide ((9 ≤ c.toNat ∧ c.toNat ≤ 13) ∨ c.toNat = 32 ∨ c.toNat = 160 ∨
    c.toNat = 5760 ∨ (8192 ≤ c.toNat ∧ c.toNat ≤ 8202) ∨ c.toNat = 8232 ∨
    c.toNat = 8233 ∨ c.toNat = 8239 ∨ c.toNat = 8287 ∨ c.toNat = 12288 ∨
    c.toNat = 65279)

/-- `Number`'s whitespace trimming of both ends of the string. -/
def jsTrim (l : List Char) : List Char :=
  ((l.dropWhile fun c => jsWhitespace c).reverse.dropWhile fun c => jsWhitespace c).reverse

/-- Model of JavaScript `Number(s)` on the component strings produced by
splitting date/time fields: surrounding ECMAScript whitespace is trimmed, the
empty (or all-whitespace) string converts to `0`, an optional single sign
followed by a nonempty digit string converts to the signed decimal value, and
anything else to `NaN` (`none`).  Fractional, exponent, and radix-prefixed
literals are outside the modelled domain — each of those contains a digit, and
every statement below about failed conversion assumes a digit-free component.
`Infinity` literals (digit-free) also map to `none`, which is sound for the
date predicates: an infinite component makes the constructed `Date` invalid
exactly as `NaN` does, so every getter comparison and `<` on it is false. -/
def jsNum (s : String) : Option Int :=
  match jsTrim s.data with
  | [] => some 0
  | c :: rest =>
    if c = '+' then
      if rest = [] then none else (digitsValAux rest 0).map fun v => (v : Int)
    else if c = '-' then
      if rest = [] then none else (digitsValAux rest 0).map fun v => -(v : Int)
    else (digitsValAux (c :: rest) 0).map fun v => (v : Int)

/-- `split` followed by `map(Number)`, as both `isToday` and
`isPastAppointment` do with date and time strings. -/
def splitNums (sep : Char) (s : String) : List (Option Int) :=
  (jsSplit s sep).map jsNum

/-- JavaScript `x || 1` applied to a split-and-converted component: `undefined`
(a missing component), `NaN`, and `0` are falsy and give `1`. -/
def jsOr1 : Option Int → Int
  | none => 1
  | some v => if v = 0 then 1 else v

/-- JavaScript `x || 0` on such a component: `undefined` and `NaN` give `0`. -/
def jsOr0 : Option Int → Int
  | none => 0
  | some v => v

/-- The wall-clock instant `new Date()` returns, recorded as its civil
components: `getFullYear() = y`, `getMonth() = m - 1`, `getDate() = d`,
`getHours() = hr`, `getMinutes() = mn`. -/
structure Now where
  y : Int
  m : Int
  d : Int
  hr : Int
  mn : Int

/-- The components describe a real wall-clock reading (year past the JavaScript
two-digit window, month/day/time in range). -/
def Now.valid (n : Now) : Prop :=
  1901 ≤ n.y ∧ 1 ≤ n.m ∧ n.m ≤ 12 ∧ 1 ≤ n.d ∧ n.d ≤ daysInMonth n.y n.m ∧
    0 ≤ n.hr ∧ n.hr < 24 ∧ 0 ≤ n.mn ∧ n.mn < 60

instance (n : Now) : Decidable n.valid := by
  unfold Now.valid
  infer_instance

/-- Time value of `new Date()` in minutes since the local epoch. -/
def nowMinutes (n : Now) : Int :=
  daysFromCivil n.y n.m n.d * 1440 + (n.hr * 60 + n.mn)

/-- `isToday` of `Appointments.tsx` / `Dashboard.tsx`: after an empty-string
guard, the `YYYY-MM-DD` string is split on `-` and converted with `Number`;
the local date `new Date(y, (m || 1) - 1, d || 1)` is compared component-wise
(`getFullYear`/`getMonth`/`getDate`) against `new Date()`.  A `NaN` year makes
the constructed date invalid, and every getter comparison on it is false. -/
def isToday (n : Now) (ds : String) : Bool :=
  if ds = "" then false
  else
    match (splitNums '-' ds).getD 0 none with
    | none => false
    | some yv =>
      let mo := (splitNums '-' ds).getD 1 none
      let dd := (splitNums '-' ds).getD 2 none
      decide (civilFromDays (jsDateDays yv (jsOr1 mo - 1) (jsOr1 dd)) = (n.y, n.m, n.d))

/-- `isPastAppointment` of `Appointments.tsx` / `Dashboard.tsx`: true when the
constructed appointment date precedes today's local midnight; otherwise, when
the date is today and a (truthy) time string is given, true when the combined
local date-time precedes `new Date()`.  An invalid (`NaN`-year) date fails the
`<` comparison and falls through to `false`. -/
def isPastAppointment (n : Now) (ds : String) (ts : Option String) : Bool :=
  if ds = "" then false
  else
    match (splitNums '-' ds).getD 0 none with
    | none => false
    | some yv =>
      let mo := (splitNums '-' ds).getD 1 none
      let dd := (splitNums '-' ds).getD 2 none
      if jsDateMinutes yv (jsOr1 mo - 1) (jsOr1 dd) 0 0 <
          jsDateMinutes n.y (n.m - 1) n.d 0 0 then true
      else if isToday n ds then
        match ts with
        | some t =>
          if t = "" then false
          else
            decide (jsDateMinutes yv (jsOr1 mo - 1) (jsOr1 dd)
              (jsOr0 ((splitNums ':' t).getD 0 none))
              (jsOr0 ((splitNums ':' t).getD 1 none)) < nowMinutes n)
        | none => false
      else false

/-- An appointment record as held by the pages (display-only relations such as
the service center are omitted; they play no role in the verified logic). -/
structure Appointment where
  id : Nat
  ticket_number : String
  appointment_type : String
  appointment_date : String
  scheduled_time : String
  status : String
deriving DecidableEq

/-- `canCheckIn` of `Appointments.tsx` / `Dashboard.tsx`. -/
def canCheckIn (n : Now) (a : Appointment) : Bool :=
  a.status == "scheduled" && isToday n a.appointment_date &&
    !isPastAppointment n a.appointment_date (some a.scheduled_time)

/-- `isToday` of the `MyQueue` component: identical to the page version except
that it has no empty-string guard (and no `try`/`catch`, which nothing in the
body can trigger). -/
def myQueueIsToday (n : Now) (ds : String) : Bool :=
  match (splitNums '-' ds).getD 0 none with
  | none => false
  | some yv =>
    let mo := (splitNums '-' ds).getD 1 none
    let dd := (splitNums '-' ds).getD 2 none
    decide (civilFromDays (jsDateDays yv (jsOr1 mo - 1) (jsOr1 dd)) = (n.y, n.m, n.d))

/-- `isPastAppointment` of the `MyQueue` component (no empty-string guard). -/
def myQueueIsPast (n : Now) (ds : String) (ts : Option String) : Bool :=
  match (splitNums '-' ds).getD 0 none with
  | none => false
  | some yv =>
    let mo := (splitNums '-' ds).getD 1 none
    let dd := (splitNums '-' ds).getD 2 none
    if jsDateMinutes yv (jsOr1 mo - 1) (jsOr1 dd) 0 0 <
        jsDateMinutes n.y (n.m - 1) n.d 0 0 then true
    else if myQueueIsToday n ds then
      match ts with
      | some t =>
        if t = "" then false
        else
          decide (jsDateMinutes yv (jsOr1 mo - 1) (jsOr1 dd)
            (jsOr0 ((splitNums ':' t).getD 0 none))
            (jsOr0 ((splitNums ':' t).getD 1 none)) < nowMinutes n)
      | none => false
    else false

/-- Queue payload returned by `GET /queue/position/{id}` as the pages consume
it. -/
structure QueueStatus where
  position : Int
  estimated_wait_time : Int
deriving DecidableEq

/-- The `queueStatus` React state of `Appointments.tsx` / `Dashboard.tsx`: a
JavaScript object keyed by appointment id, modelled by its lookup function. -/
def QMap := Nat → Option QueueStatus

/-- The initial `{}` state. -/
def qempty : QMap := fun _ => none

/-- `{ ...prev, [k]: v }`: the computed-key object spread used by
`setQueueStatus`. -/
def qinsert (mp : QMap) (k : Nat) (v : QueueStatus) : QMap :=
  fun k2 => if k2 = k then some v else mp k2

/-- The status filter of `fetchAppointments` in `Appointments.tsx` /
`Dashboard.tsx`: `status === 'confirmed' || status === 'in_progress'`. -/
def isActiveStatus (s : String) : Bool :=
  s == "confirmed" || s == "in_progress"

/-- One reconciliation pass of `fetchAppointments` (`Appointments.tsx` lines
132-146, `Dashboard.tsx` lines 78-92) over the fetched appointment list:
filter by status, then for each appointment try `getQueuePosition`; a success
(`fetch a.id = some q`) merges `{ ...prev, [a.id]: q }` into the state, a
failure (`none`, the thrown/caught case) leaves the state untouched and the
loop continues. -/
def reconcilePass (fetch : Nat → Option QueueStatus) (prev : QMap)
    (appts : List Appointment) : QMap :=
  (appts.filter fun a => isActiveStatus a.status).foldl
    (fun acc a =>
      match fetch a.id with
      | some q => qinsert acc a.id q
      | none => acc) prev

/-- Queue payload as the `MyQueue` component consumes it. -/
structure QueueInfo where
  position : Int
  estimated_wait_time : Int
  total_ahead : Int
deriving DecidableEq

/-- The status filter of `MyQueue.fetchQueueData`: it additionally keeps
`scheduled` appointments. -/
def myQueueActiveStatus (s : String) : Bool :=
  s == "confirmed" || s == "in_progress" || s == "scheduled"

/-- One pass of `MyQueue.fetchQueueData`: the filtered appointments are each
paired with a `queueInfo` field that is the fetched payload when the
appointment is today and the fetch succeeds, and `null` (`none`) when the date
is not today or the fetch fails; `setQueueData` then replaces the whole list
with this result. -/
def myQueuePass (n : Now) (fetch : Nat → Option QueueInfo)
    (appts : List Appointment) : List (Appointment × Option QueueInfo) :=
  (appts.filter fun a => myQueueActiveStatus a.status).map
    fun a => (a, if myQueueIsToday n a.appointment_date then fetch a.id else none)

/-- Outcome of a check-in handler: either a client-side rejection showing a
toast message, or the network call `POST /queue/checkin/{id}`. -/
inductive CheckInOutcome where
  | reject (msg : String)
  | callApi (id : Nat)
deriving DecidableEq

/-- Whether the outcome reaches the network. -/
def networkCalled : CheckInOutcome → Bool
  | .callApi _ => true
  | .reject _ => false

/-- `handleCheckIn` of `Appointments.tsx` / `Dashboard.tsx` up to its first
network operation: look the appointment up, reject when it is missing or when
`canCheckIn` fails (with the branch-specific message), otherwise call
`queueAPI.checkIn`. -/
def handleCheckIn (n : Now) (appts : List Appointment) (k : Nat) : CheckInOutcome :=
  match appts.find? (fun a => a.id == k) with
  | none => .reject "Appointment not found"
  | some a =>
    if !canCheckIn n a then
      if a.status != "scheduled" then
        .reject "Only scheduled appointments can be checked in"
      else if !isToday n a.appointment_date then
        .reject "You can only check in on the appointment date"
      else if isPastAppointment n a.appointment_date (some a.scheduled_time) then
        .reject "Cannot check in for past appointments"
      else
        .reject "Check-in not available for this appointment"
    else .callApi k

/-- `MyQueue.handleCheckIn` (lines 691-699): it performs no eligibility check
of its own and immediately calls `queueAPI.checkIn`. -/
def myQueueHandleCheckIn (k : Nat) : CheckInOutcome :=
  .callApi k

/-- The render-side gate of the check-in button in `MyQueue` (lines 918-930):
the button (and with it the only caller of `MyQueue.handleCheckIn`) is shown
exactly when this conjunction holds at render time. -/
def myQueueShowsCheckIn (n : Now) (a : Appointment) : Bool :=
  a.status == "scheduled" && myQueueIsToday n a.appointment_date &&
    !myQueueIsPast n a.appointment_date (some a.scheduled_time)

/-- Shapes of the `detail` field of a structured backend error payload. -/
inductive ErrorDetail where
  | strD (s : String)
  | listD (items : List String)
  | objD (message : String)
deriving DecidableEq

/-- A JavaScript value handed to `toast.error`. -/
inductive JsVal where
  | jstr (s : String)
  | jarr (items : List String)
  | jobjMsg (message : String)
deriving DecidableEq

/-- JavaScript truthiness of a `detail` value: only the empty string is falsy
(an empty array and any object are truthy). -/
def detailTruthy : ErrorDetail → Bool
  | .strD s => s != ""
  | .listD _ => true
  | .objD _ => true

/-- Passing a `detail` value to `toast.error` verbatim. -/
def detailToVal : ErrorDetail → JsVal
  | .strD s => .jstr s
  | .listD l => .jarr l
  | .objD msg => .jobjMsg msg

/-- Modelled from the spec: the normalization rule of section 4.1, which the
claim asserts the client applies — a string is kept as-is, a list of field
errors is joined for display, and a nested object is reduced to its message.
Stated here as the spec-side reference to compare the code against. -/
def specNormalizeDetail : ErrorDetail → String
  | .strD s => s
  | .listD l => String.intercalate ", " l
  | .objD msg => msg

/-- The value `handleCheckIn`'s catch block passes to `toast.error`
(`Appointments.tsx` lines 388-395): `error.response.data.detail` verbatim when
present and truthy, else a generic message. -/
def checkInFailureToast (d : Option ErrorDetail) : JsVal :=
  match d with
  | some dd =>
    if detailTruthy dd then detailToVal dd
    else .jstr "Failed to check in. Please try again."
  | none => .jstr "Failed to check in. Please try again."

/-- The value `handleCancelAppointment`'s catch block passes to `toast.error`
(`Appointments.tsx` lines 170-173): a fixed message; the payload is never
consulted. -/
def cancelFailureToast (_d : Option ErrorDetail) : JsVal :=
  .jstr "Failed to cancel appointment"

/-- The browser state the response interceptor touches: the stored token and
the window location. -/
structure Browser where
  token : Option String
  location : String
deriving DecidableEq

/-- An axios error as the interceptor inspects it: `error.response?.status`
(`none` models a request that got no response). -/
structure ApiError where
  status : Option Nat
deriving DecidableEq

/-- The response-error interceptor of the shared API client: on a 401 response
the token is removed and the location set to `/login`, then the error is
re-raised (`Promise.reject`) unchanged; on anything else the state is left
alone and the same error is re-raised. -/
def handleResponseError (b : Browser) (e : ApiError) : Browser × Except ApiError Unit :=
  if e.status = some 401 then ({ token := none, location := "/login" }, Except.error e)
  else (b, Except.error e)

/-- Strict `YYYY-MM-DD` recognition: the shape for which `new Date(s)`
succeeds as a date-only ISO form (ES interprets it as UTC midnight). -/
def parseISODateOnly (s : String) : Option (Int × Int × Int) :=
  match jsSplit s '-' with
  | [ys, ms, dsx] =>
    if ys.length = 4 ∧ ms.length = 2 ∧ dsx.length = 2 then
      match jsNum ys, jsNum ms, jsNum dsx with
      | some yv, some mv, some dv =>
        if 1 ≤ mv ∧ mv ≤ 12 ∧ 1 ≤ dv ∧ dv ≤ daysInMonth yv mv then some (yv, mv, dv)
        else none
      | _, _, _ => none
    else none
  | _ => none

/-- The calendar components `formatDate` renders, for a viewer whose UTC
offset is `tz` minutes.  A well-formed `YYYY-MM-DD` string is parsed by
`new Date(dateString)` as UTC midnight (ES date-only forms are UTC), which
`toLocaleDateString` then renders in the viewer's zone — so the shown day is
the floor of `(UTC midnight + tz)` in days.  Only when that parse fails does
the code fall back to component-wise local construction, which is
offset-independent. -/
def formatDateCivil (tz : Int) (s : String) : Option (Int × Int × Int) :=
  match parseISODateOnly s with
  | some (yv, mv, dv) =>
    some (civilFromDays ((daysFromCivil yv mv dv * 1440 + tz) / 1440))
  | none =>
    match jsSplit s '-' with
    | [ys, ms, dsx] =>
      match jsNum ys, jsNum ms, jsNum dsx with
      | some yv, some mv, some dv => some (civilFromDays (jsDateDays yv (mv - 1) dv))
      | _, _, _ => none
    | _ => none

/-- Core arithmetic fact behind `civilFromDays`: the year-of-era formula
recovers the year-of-era from the day-of-era.  All floor divisions are supplied
as flattened quotient variables with their defining inequalities. -/
theorem yoe_recover (yoe doy q4 q100 doe t1 t2 t3 n yoe2 : Int)
    (ha : 0 ≤ yoe) (hb : yoe ≤ 399) (hc : 0 ≤ doy) (hd : doy ≤ 365)
    (hleap : doy ≤ 364 ∨ ((4 : Int) ∣ (yoe + 1) ∧ (¬ (100 : Int) ∣ (yoe + 1) ∨ yoe = 399)))
    (h1 : 4 * q4 ≤ yoe) (h2 : yoe < 4 * q4 + 4)
    (h3 : 100 * q100 ≤ yoe) (h4 : yoe < 100 * q100 + 100)
    (h5 : doe = 365 * yoe + q4 - q100 + doy)
    (h6 : 1460 * t1 ≤ doe) (h7 : doe < 1460 * t1 + 1460)
    (h8 : 36524 * t2 ≤ doe) (h9 : doe < 36524 * t2 + 36524)
    (h10 : 146096 * t3 ≤ doe) (h11 : doe < 146096 * t3 + 146096)
    (h12 : n = doe - t1 + t2 - t3)
    (h13 : 365 * yoe2 ≤ n) (h14 : n < 365 * yoe2 + 365) :
    yoe2 = yoe := by
  have hq : t1 = q4 ∨ t1 = q4 + 1 := by omega
  have he : t2 = q100 ∨ t2 = q100 + 1 := by omega
  have ht : t3 = 0 ∨ t3 = 1 := by omega
  rcases hq with hq | hq <;> rcases he with he | he <;> rcases ht with ht | ht <;> omega

/-- The month formula of `civilFromDays` recovers the (March-shifted) month
from the day-of-year. -/
theorem mp_recover (m d doy mpE : Int)
    (hm1 : 1 ≤ m) (hm2 : m ≤ 12) (hd1 : 1 ≤ d)
    (hdoy : (2 < m ∧ doy = (153 * (m - 3) + 2) / 5 + d - 1) ∨
            (m ≤ 2 ∧ doy = (153 * (m + 9) + 2) / 5 + d - 1))
    (hdim : (m = 2 ∧ d ≤ 29) ∨ ((m = 4 ∨ m = 6 ∨ m = 9 ∨ m = 11) ∧ d ≤ 30) ∨
            ((m = 1 ∨ m = 3 ∨ m = 5 ∨ m = 7 ∨ m = 8 ∨ m = 10 ∨ m = 12) ∧ d ≤ 31))
    (hmpE : mpE = (5 * doy + 2) / 153) :
    (2 < m ∧ mpE = m - 3) ∨ (m ≤ 2 ∧ mpE = m + 9) := by
  interval_cases m <;> omega

/-- `civilFromDays` inverts the era/year-of-era/day-of-year encoding used by
`daysFromCivil`, stated with the encoding supplied explicitly. -/
theorem civil_inv (y m d era yoe doy : Int)
    (hm1 : 1 ≤ m) (hm2 : m ≤ 12) (hd1 : 1 ≤ d)
    (hyoe : 0 ≤ yoe ∧ yoe ≤ 399)
    (hy : (m ≤ 2 ∧ y - 1 = era * 400 + yoe) ∨ (3 ≤ m ∧ y = era * 400 + yoe))
    (hdoy : (2 < m ∧ doy = (153 * (m - 3) + 2) / 5 + d - 1) ∨
            (m ≤ 2 ∧ doy = (153 * (m + 9) + 2) / 5 + d - 1))
    (hdim : (m = 2 ∧ d ≤ 29 ∧ (d = 29 → ((y % 4 = 0 ∧ ¬ y % 100 = 0) ∨ y % 400 = 0))) ∨
            ((m = 4 ∨ m = 6 ∨ m = 9 ∨ m = 11) ∧ d ≤ 30) ∨
            ((m = 1 ∨ m = 3 ∨ m = 5 ∨ m = 7 ∨ m = 8 ∨ m = 10 ∨ m = 12) ∧ d ≤ 31)) :
    civilFromDays (era * 146097 + (yoe * 365 + yoe / 4 - yoe / 100 + doy) - 719468)
      = (y, m, d) := by
  have hdoyb : 0 ≤ doy ∧ doy ≤ 365 := by omega
  have hdim2 : (m = 2 ∧ d ≤ 29) ∨ ((m = 4 ∨ m = 6 ∨ m = 9 ∨ m = 11) ∧ d ≤ 30) ∨
      ((m = 1 ∨ m = 3 ∨ m = 5 ∨ m = 7 ∨ m = 8 ∨ m = 10 ∨ m = 12) ∧ d ≤ 31) := by
    rcases hdim with ⟨h1, h2, _⟩ | h | h
    · exact Or.inl ⟨h1, h2⟩
    · exact Or.inr (Or.inl h)
    · exact Or.inr (Or.inr h)
  dsimp only [civilFromDays]
  set z := era * 146097 + (yoe * 365 + yoe / 4 - yoe / 100 + doy) - 719468 with hz
  set e1 := (z + 719468) / 146097 with he1
  set doe2 := z + 719468 - e1 * 146097 with hdoe2
  set t1 := doe2 / 1460 with ht1
  set t2 := doe2 / 36524 with ht2
  set t3 := doe2 / 146096 with ht3
  set w := (doe2 - t1 + t2 - t3) / 365 with hwdef
  set q4w := w / 4 with hq4w
  set qcw := w / 100 with hqcw
  set doyE := doe2 - (365 * w + q4w - qcw) with hdoyE
  set mpE := (5 * doyE + 2) / 153 with hmpE
  set dE := doyE - (153 * mpE + 2) / 5 + 1 with hdEdef
  have hE1 : e1 = era := by omega
  have hdoe : doe2 = yoe * 365 + yoe / 4 - yoe / 100 + doy := by omega
  have hleap : doy ≤ 364 ∨ ((4 : Int) ∣ (yoe + 1) ∧ (¬ (100 : Int) ∣ (yoe + 1) ∨ yoe = 399)) := by
    rcases hdim with ⟨hmeq, hd29, hlp⟩ | h | h
    · by_cases hdv : d = 29
      · specialize hlp hdv
        omega
      · left; omega
    · left; omega
    · left
      rcases hdoy with ⟨h3m, hdv⟩ | ⟨h2m, hdv⟩ <;> omega
  have hW : w = yoe := by
    apply yoe_recover yoe doy (yoe / 4) (yoe / 100) doe2 t1 t2 t3
        (doe2 - t1 + t2 - t3) w hyoe.1 hyoe.2 hdoyb.1 hdoyb.2 hleap <;> omega
  have hq4 : q4w = yoe / 4 := by rw [hq4w, hW]
  have hqc : qcw = yoe / 100 := by rw [hqcw, hW]
  have hdoyE2 : doyE = doy := by omega
  have hmpE2 : mpE = (5 * doy + 2) / 153 := by rw [hmpE, hdoyE2]
  have hdE0 : dE = doy - (153 * mpE + 2) / 5 + 1 := by rw [hdEdef, hdoyE2]
  clear hz he1 hdoe2 ht1 ht2 ht3 hwdef hq4w hqcw hdoyE hleap hdoe hq4 hqc
  clear hdim hmpE hdEdef hdoyE2 hdoyb
  have hmp : (2 < m ∧ mpE = m - 3) ∨ (m ≤ 2 ∧ mpE = m + 9) :=
    mp_recover m d doy mpE hm1 hm2 hd1 hdoy hdim2 hmpE2
  have hdE : dE = d := by
    clear hmpE2 hW hy
    rcases hmp with ⟨h3m, hmpv⟩ | ⟨h2m, hmpv⟩ <;> omega
  clear hmpE2 hdE0 hdim2 hdoy
  rcases hmp with ⟨h3m, hmpv⟩ | ⟨h2m, hmpv⟩
  · have hmE : (if mpE < 10 then mpE + 3 else mpE - 9) = m := by
      rw [if_pos (by omega : mpE < 10)]; omega
    rw [hmE, if_neg (by omega : ¬ m ≤ 2)]
    simp only [Prod.mk.injEq]
    exact ⟨by omega, trivial, by omega⟩
  · have hmE : (if mpE < 10 then mpE + 3 else mpE - 9) = m := by
      rw [if_neg (by omega : ¬ mpE < 10)]; omega
    rw [hmE, if_pos (by omega : m ≤ 2)]
    simp only [Prod.mk.injEq]
    exact ⟨by omega, trivial, by omega⟩

/-- Round trip: decomposing the day number of a valid civil date gives back its
components.  This is the key fact linking JavaScript's component getters with
day-number arithmetic. -/
theorem civil_roundtrip (y m d : Int) (hm1 : 1 ≤ m) (hm2 : m ≤ 12)
    (hd1 : 1 ≤ d) (hd2 : d ≤ daysInMonth y m) :
    civilFromDays (daysFromCivil y m d) = (y, m, d) := by
  have hdim : (m = 2 ∧ d ≤ 29 ∧ (d = 29 → ((y % 4 = 0 ∧ ¬ y % 100 = 0) ∨ y % 400 = 0))) ∨
      ((m = 4 ∨ m = 6 ∨ m = 9 ∨ m = 11) ∧ d ≤ 30) ∨
      ((m = 1 ∨ m = 3 ∨ m = 5 ∨ m = 7 ∨ m = 8 ∨ m = 10 ∨ m = 12) ∧ d ≤ 31) := by
    unfold daysInMonth isLeapYear at hd2
    split_ifs at hd2 with hc1 hc2 hc3
    · simp only [Bool.or_eq_true, Bool.and_eq_true, decide_eq_true_eq, bne_iff_ne, ne_eq] at hc2
      left; exact ⟨hc1, by omega, fun _ => hc2⟩
    · left; refine ⟨hc1, by omega, fun hdv => ?_⟩
      simp only [Bool.or_eq_true, Bool.and_eq_true, decide_eq_true_eq, bne_iff_ne, ne_eq] at hc2
      omega
    · right; left; exact ⟨hc3, hd2⟩
    · right; right; omega
  have key := civil_inv y m d
      ((if m ≤ 2 then y - 1 else y) / 400)
      ((if m ≤ 2 then y - 1 else y) - (if m ≤ 2 then y - 1 else y) / 400 * 400)
      ((153 * (if 2 < m then m - 3 else m + 9) + 2) / 5 + d - 1)
      hm1 hm2 hd1
      (by split_ifs <;> omega)
      (by by_cases h2 : m ≤ 2
          · left
            rw [if_pos h2]
            exact ⟨h2, by omega⟩
          · right
            rw [if_neg h2]
            exact ⟨by omega, by omega⟩)
      (by by_cases h3 : 2 < m
          · left
            rw [if_pos h3]
            exact ⟨h3, rfl⟩
          · right
            rw [if_neg h3]
            exact ⟨by omega, rfl⟩)
      hdim
  have harg : daysFromCivil y m d
      = (if m ≤ 2 then y - 1 else y) / 400 * 146097 +
        (((if m ≤ 2 then y - 1 else y) - (if m ≤ 2 then y - 1 else y) / 400 * 400) * 365 +
          ((if m ≤ 2 then y - 1 else y) - (if m ≤ 2 then y - 1 else y) / 400 * 400) / 4 -
          ((if m ≤ 2 then y - 1 else y) - (if m ≤ 2 then y - 1 else y) / 400 * 400) / 100 +
          ((153 * (if 2 < m then m - 3 else m + 9) + 2) / 5 + d - 1)) - 719468 := rfl
  rw [harg]
  exact key

/-- For in-range months and years outside the two-digit window, the constructed
date is the plain civil date, with the day entering linearly. -/
theorem jsDateDays_eq (y m d : Int) (hy : 100 ≤ y) (hm1 : 1 ≤ m) (hm2 : m ≤ 12) :
    jsDateDays y (m - 1) d = daysFromCivil y m d := by
  unfold jsDateDays jsMakeDay jsAdjustYear
  rw [if_neg (by omega)]
  have h1 : (y * 12 + (m - 1)) / 12 = y := by omega
  have h2 : (y * 12 + (m - 1)) % 12 + 1 = m := by omega
  rw [h1, h2]
  dsimp only [daysFromCivil]
  split_ifs <;> omega

/-- Characterization of `isToday` on a well-formed date string: with the split
components given, it decides equality of day numbers with today. -/
theorem isToday_eq (n : Now) (ds : String) (y m d : Int)
    (hval : n.valid)
    (hsplit : splitNums '-' ds = [some y, some m, some d])
    (hy : 100 ≤ y) (hm1 : 1 ≤ m) (hm2 : m ≤ 12) (hd1 : 1 ≤ d) (hd2 : d ≤ daysInMonth y m) :
    isToday n ds = decide (daysFromCivil y m d = daysFromCivil n.y n.m n.d) := by
  obtain ⟨hny, hnm1, hnm2, hnd1, hnd2, -⟩ := hval
  have hne : ds ≠ "" := by
    intro h
    subst h
    have hlen : (splitNums '-' "").length = 3 := by rw [hsplit]; rfl
    exact absurd hlen (by decide)
  have hm0 : jsOr1 (some m) = m := by
    simp only [jsOr1]
    rw [if_neg (by omega : ¬ m = 0)]
  have hd0 : jsOr1 (some d) = d := by
    simp only [jsOr1]
    rw [if_neg (by omega : ¬ d = 0)]
  unfold isToday
  rw [if_neg hne, hsplit]
  simp only [List.getD_cons_zero, List.getD_cons_succ, decide_eq_decide]
  rw [hm0, hd0, jsDateDays_eq y m d (by omega) hm1 hm2]
  rw [civil_roundtrip y m d hm1 hm2 hd1 hd2]
  constructor
  · intro h
    simp only [Prod.mk.injEq] at h
    obtain ⟨h1, h2, h3⟩ := h
    rw [h1, h2, h3]
  · intro h
    have h2 := congrArg civilFromDays h
    rw [civil_roundtrip y m d hm1 hm2 hd1 hd2,
      civil_roundtrip n.y n.m n.d (by omega) hnm2 hnd1 hnd2] at h2
    exact h2

/-- `new Date(y, m - 1, d, h, mi)` for an in-range month is the civil day
number scaled to minutes plus the time of day. -/
theorem jsDateMinutes_eq (y m d h mi : Int) (hy : 100 ≤ y) (hm1 : 1 ≤ m) (hm2 : m ≤ 12) :
    jsDateMinutes y (m - 1) d h mi = daysFromCivil y m d * 1440 + (h * 60 + mi) := by
  unfold jsDateMinutes
  rw [jsDateDays_eq y m d hy hm1 hm2]

/-- Characterization of `isPastAppointment` on a well-formed date string:
without a time it decides strict calendar order against today; with a time
whose leading components parse, it additionally compares the combined
minute-level instant with now when the date is today. -/
theorem isPast_eq (n : Now) (ds : String) (y m d : Int)
    (hval : n.valid)
    (hsplit : splitNums '-' ds = [some y, some m, some d])
    (hy : 100 ≤ y) (hm1 : 1 ≤ m) (hm2 : m ≤ 12) (hd1 : 1 ≤ d) (hd2 : d ≤ daysInMonth y m) :
    (isPastAppointment n ds none = true ↔
      daysFromCivil y m d < daysFromCivil n.y n.m n.d) ∧
    (∀ (t : String) (hh mm : Int),
      t ≠ "" →
      (splitNums ':' t).getD 0 none = some hh →
      (splitNums ':' t).getD 1 none = some mm →
      (isPastAppointment n ds (some t) = true ↔
        (daysFromCivil y m d < daysFromCivil n.y n.m n.d ∨
          (daysFromCivil y m d = daysFromCivil n.y n.m n.d ∧
            daysFromCivil y m d * 1440 + (hh * 60 + mm) < nowMinutes n)))) := by
  have hval' := hval
  obtain ⟨hny, hnm1, hnm2, hnd1, hnd2, -⟩ := hval'
  have hne : ds ≠ "" := by
    intro h
    subst h
    have hlen : (splitNums '-' "").length = 3 := by rw [hsplit]; rfl
    exact absurd hlen (by decide)
  have hm0 : jsOr1 (some m) = m := by
    simp only [jsOr1]
    rw [if_neg (by omega : ¬ m = 0)]
  have hd0 : jsOr1 (some d) = d := by
    simp only [jsOr1]
    rw [if_neg (by omega : ¬ d = 0)]
  have e1 : jsDateMinutes y (m - 1) d 0 0 = daysFromCivil y m d * 1440 + (0 * 60 + 0) :=
    jsDateMinutes_eq y m d 0 0 (by omega) hm1 hm2
  have e2 : jsDateMinutes n.y (n.m - 1) n.d 0 0
      = daysFromCivil n.y n.m n.d * 1440 + (0 * 60 + 0) :=
    jsDateMinutes_eq n.y n.m n.d 0 0 (by omega) hnm1 hnm2
  have htoday := isToday_eq n ds y m d hval hsplit hy hm1 hm2 hd1 hd2
  constructor
  · unfold isPastAppointment
    rw [if_neg hne, hsplit]
    simp only [List.getD_cons_zero, List.getD_cons_succ, hm0, hd0, e1, e2, htoday]
    by_cases hlt : daysFromCivil y m d < daysFromCivil n.y n.m n.d
    · rw [if_pos (by omega)]
      simp [hlt]
    · rw [if_neg (by omega)]
      split_ifs <;> simp <;> omega
  · intro t hh mm htne hget0 hget1
    have hjs0 : jsOr0 ((splitNums ':' t).getD 0 none) = hh := by rw [hget0]; rfl
    have hjs1 : jsOr0 ((splitNums ':' t).getD 1 none) = mm := by rw [hget1]; rfl
    unfold isPastAppointment
    rw [if_neg hne, hsplit]
    simp only [List.getD_cons_zero, List.getD_cons_succ, hm0, hd0, e1, e2, htoday,
      hjs0, hjs1, if_neg htne]
    have e3 : jsDateMinutes y (m - 1) d hh mm
        = daysFromCivil y m d * 1440 + (hh * 60 + mm) :=
      jsDateMinutes_eq y m d hh mm (by omega) hm1 hm2
    rw [e3]
    by_cases hlt : daysFromCivil y m d < daysFromCivil n.y n.m n.d
    · rw [if_pos (by omega)]
      simp [hlt]
    · rw [if_neg (by omega)]
      by_cases heq : daysFromCivil y m d = daysFromCivil n.y n.m n.d
      · rw [if_pos (by simp [heq])]
        simp [hlt, heq]
      · rw [if_neg (by simp [heq])]
        simp [hlt, heq]

/-- Lookup characterization of one reconciliation pass: an id maps to the
freshly fetched value when some status-active appointment with that id fetched
successfully in this pass, and otherwise keeps whatever the previous map held
for it. -/
theorem reconcilePass_lookup (fetch : Nat → Option QueueStatus) (prev : QMap)
    (appts : List Appointment) (k : Nat) :
    reconcilePass fetch prev appts k =
      if appts.any (fun a => isActiveStatus a.status && a.id == k && (fetch a.id).isSome)
      then fetch k else prev k := by
  induction appts generalizing prev with
  | nil => simp [reconcilePass]
  | cons a t ih =>
    by_cases hA : isActiveStatus a.status
    · have hstep : reconcilePass fetch prev (a :: t) k
          = reconcilePass fetch
              (match fetch a.id with
                | some q => qinsert prev a.id q
                | none => prev) t k := by
        simp [reconcilePass, List.filter_cons, hA]
      rw [hstep, ih]
      cases hfe : fetch a.id with
      | none =>
        simp [List.any_cons, hA, hfe]
      | some q =>
        by_cases hid : a.id = k
        · subst hid
          cases ht : t.any (fun a2 => isActiveStatus a2.status && a2.id == a.id &&
              (fetch a2.id).isSome) with
          | true => simp [List.any_cons, hA, hfe, ht]
          | false => simp [List.any_cons, hA, hfe, ht, qinsert]
        · cases ht : t.any (fun a2 => isActiveStatus a2.status && a2.id == k &&
              (fetch a2.id).isSome) with
          | true => simp [List.any_cons, hA, hfe, ht, hid]
          | false => simp [List.any_cons, hA, hfe, ht, hid, qinsert, Ne.symm hid]
    · have hstep : reconcilePass fetch prev (a :: t) k = reconcilePass fetch prev t k := by
        simp [reconcilePass, List.filter_cons, hA]
      rw [hstep, ih]
      simp [List.any_cons, hA]

/-- C1 counterexample: an appointment with active status `confirmed` but dated
2025-03-11 while today is 2025-03-10 — its date is not today, yet the
reconciliation pass adds its id as a key of the resulting map when the fetch
succeeds, contradicting the claim's date clause. -/
theorem c1_counterexample :
    isToday ⟨2025, 3, 10, 12, 0⟩ "2025-03-11" = false ∧
    reconcilePass (fun _ => some ⟨2, 10⟩) qempty
      [⟨5, "T5", "new_id", "2025-03-11", "09:00", "confirmed"⟩] 5 = some ⟨2, 10⟩ := by
  constructor <;> decide

/-- C1 (amended): the reconciliation pass filters by status only — an id all of
whose appointments have status outside {confirmed, in_progress} is never
touched; the appointment date is not consulted at all (the pass takes no
clock), so an active-status appointment dated other than today is still added
on a successful fetch. -/
theorem c1_reconciler_status_only (fetch : Nat → Option QueueStatus) (prev : QMap)
    (appts : List Appointment) (k : Nat)
    (h : ∀ a ∈ appts, a.id = k → isActiveStatus a.status = false) :
    reconcilePass fetch prev appts k = prev k := by
  rw [reconcilePass_lookup]
  have hany : appts.any
      (fun a => isActiveStatus a.status && a.id == k && (fetch a.id).isSome) = false := by
    rw [List.any_eq_false]
    intro a ha
    simp only [Bool.and_eq_true, beq_iff_eq, not_and]
    intro hx
    exact absurd (h a ha hx.2) (by simp [hx.1])
  simp [hany]

/-- C1 witness. -/
theorem c1_reconciler_status_only_witness :
    reconcilePass (fun _ => some ⟨1, 5⟩) qempty
      [⟨7, "T7", "renewal", "2025-03-10", "09:00", "cancelled"⟩] 7 = none :=
  (c1_reconciler_status_only (fun _ => some ⟨1, 5⟩) qempty
    [⟨7, "T7", "renewal", "2025-03-10", "09:00", "cancelled"⟩] 7
    (by intro a ha _; rw [List.mem_singleton] at ha; subst ha; decide)).trans rfl

/-- C2 counterexample: with the previous map holding an entry for id 1 and the
latest pass failing the fetch for id 1, the pass alone produces nothing for
id 1, yet after the pass the stale entry survives — the map is merged, not
replaced. -/
theorem c2_counterexample :
    reconcilePass (fun _ => none) qempty
      [⟨1, "T1", "new_id", "2025-03-10", "09:00", "confirmed"⟩] 1 = none ∧
    reconcilePass (fun _ => none) (qinsert qempty 1 ⟨3, 15⟩)
      [⟨1, "T1", "new_id", "2025-03-10", "09:00", "confirmed"⟩] 1 = some ⟨3, 15⟩ := by
  constructor <;> decide

/-- C2 (amended): a reconciliation pass updates the previous map in place: an
id maps to the freshly fetched value exactly when some active-status
appointment with that id fetched successfully in this pass, and otherwise
keeps the previous entry — so entries from earlier passes survive, including
ids whose fetch failed in the latest pass. -/
theorem c2_merge_keeps_previous (fetch : Nat → Option QueueStatus) (prev : QMap)
    (appts : List Appointment) (k : Nat) :
    reconcilePass fetch prev appts k =
      if appts.any (fun a => isActiveStatus a.status && a.id == k && (fetch a.id).isSome)
      then fetch k else prev k :=
  reconcilePass_lookup fetch prev appts k

/-- C3 counterexample: in `MyQueue`, a confirmed same-day appointment whose
queue-position fetch fails is not omitted from the result — it appears with an
explicit `null` placeholder stored in its `queueInfo` field. -/
theorem c3_counterexample :
    myQueuePass ⟨2025, 3, 10, 9, 0⟩ (fun _ => none)
      [⟨1, "T1", "new_id", "2025-03-10", "09:00", "confirmed"⟩]
      = [(⟨1, "T1", "new_id", "2025-03-10", "09:00", "confirmed"⟩, none)] := by
  decide

/-- C3 (amended): within one pass of `Appointments.tsx`/`Dashboard.tsx`
starting from an empty map, a failed fetch leaves its id absent and every
successful fetch is stored with its result, one failure never affecting the
other items; but the pass merges into the previous map (a stale entry for a
now-failing id survives, see the C2 theorems), and in `MyQueue` every active
appointment appears in the result with `queueInfo` set to `null` on failure
rather than being omitted. -/
theorem c3_per_item_isolation :
    (∀ (fetch : Nat → Option QueueStatus) (appts : List Appointment) (k : Nat),
      fetch k = none → reconcilePass fetch qempty appts k = none) ∧
    (∀ (fetch : Nat → Option QueueStatus) (prev : QMap) (appts : List Appointment)
        (a : Appointment) (q : QueueStatus),
      a ∈ appts → isActiveStatus a.status = true → fetch a.id = some q →
      reconcilePass fetch prev appts a.id = some q) ∧
    (∀ (n : Now) (fetch : Nat → Option QueueInfo) (appts : List Appointment)
        (a : Appointment),
      a ∈ appts → myQueueActiveStatus a.status = true →
      (a, if myQueueIsToday n a.appointment_date then fetch a.id else none)
        ∈ myQueuePass n fetch appts) := by
  refine ⟨?_, ?_, ?_⟩
  · intro fetch appts k hfk
    rw [reconcilePass_lookup]
    split_ifs <;> simp [hfk, qempty]
  · intro fetch prev appts a q ha hact hfe
    rw [reconcilePass_lookup]
    have hany : appts.any
        (fun a2 => isActiveStatus a2.status && a2.id == a.id && (fetch a2.id).isSome)
          = true :=
      List.any_eq_true.mpr ⟨a, ha, by simp [hact, hfe]⟩
    simp [hany, hfe]
  · intro n fetch appts a ha hact
    unfold myQueuePass
    exact List.mem_map.mpr ⟨a, List.mem_filter.mpr ⟨ha, hact⟩, rfl⟩

/-- C3 witness: the specification scenario — A (id 1, confirmed, today 09:00)
fails its fetch, B (id 2, confirmed, today 09:30) succeeds with position 2 and
wait 10; afterwards the map (built in one pass from empty) contains only B. -/
theorem c3_per_item_isolation_witness :
    reconcilePass (fun k => if k = 2 then some ⟨2, 10⟩ else none) qempty
      [⟨1, "T1", "new_id", "2025-03-10", "09:00", "confirmed"⟩,
        ⟨2, "T2", "new_id", "2025-03-10", "09:30", "confirmed"⟩] 1 = none ∧
    reconcilePass (fun k => if k = 2 then some ⟨2, 10⟩ else none) qempty
      [⟨1, "T1", "new_id", "2025-03-10", "09:00", "confirmed"⟩,
        ⟨2, "T2", "new_id", "2025-03-10", "09:30", "confirmed"⟩] 2 = some ⟨2, 10⟩ :=
  ⟨c3_per_item_isolation.1 _ _ 1 (by decide),
    c3_per_item_isolation.2.1 _ qempty _
      ⟨2, "T2", "new_id", "2025-03-10", "09:30", "confirmed"⟩ ⟨2, 10⟩
      (by simp) (by decide) (by decide)⟩

/-- C4: evaluating the modelled `formatDate` on the booked date `2025-03-10`
shows March 9 to a viewer at UTC-05:00 (offset -300 minutes) and March 10 at
UTC+0 — the date-only string goes through `new Date(dateString)` (UTC
midnight) and shifts for west-of-UTC viewers, violating the round-trip
requirement. -/
theorem c4_format_date_utc_shift :
    formatDateCivil (-300) "2025-03-10" = some (2025, 3, 9) ∧
    formatDateCivil 0 "2025-03-10" = some (2025, 3, 10) := by
  constructor <;> decide

/-- C5: `canCheckIn` holds exactly when the status is `scheduled`, the date is
today, and the appointment is not past; in particular it is false for every
other status. -/
theorem c5_canCheckIn_spec (n : Now) (a : Appointment) :
    (canCheckIn n a = true ↔
      (a.status = "scheduled" ∧ isToday n a.appointment_date = true ∧
        isPastAppointment n a.appointment_date (some a.scheduled_time) = false)) ∧
    (a.status ≠ "scheduled" → canCheckIn n a = false) := by
  constructor
  · unfold canCheckIn
    simp [Bool.and_eq_true, beq_iff_eq, Bool.not_eq_true', and_assoc]
  · intro h
    unfold canCheckIn
    simp [h]

/-- C5 witness: a completed appointment cannot be checked in. -/
theorem c5_canCheckIn_spec_witness :
    canCheckIn ⟨2025, 3, 10, 12, 0⟩
      ⟨4, "T4", "new_id", "2025-03-10", "14:00", "completed"⟩ = false :=
  (c5_canCheckIn_spec ⟨2025, 3, 10, 12, 0⟩
    ⟨4, "T4", "new_id", "2025-03-10", "14:00", "completed"⟩).2 (by decide)

/-- C6: on a well-formed date string (split components `y-m-d` forming a valid
calendar date) and a fixed valid clock, `isPastAppointment` without a time
decides strict calendar order against today's date, and with a time whose
leading `HH:MM` components parse it additionally compares the combined local
instant with now exactly when the date is today. -/
theorem c6_isPast_spec (n : Now) (ds : String) (y m d : Int)
    (hval : n.valid)
    (hsplit : splitNums '-' ds = [some y, some m, some d])
    (hy : 100 ≤ y) (hm1 : 1 ≤ m) (hm2 : m ≤ 12) (hd1 : 1 ≤ d) (hd2 : d ≤ daysInMonth y m) :
    (isPastAppointment n ds none = true ↔
      daysFromCivil y m d < daysFromCivil n.y n.m n.d) ∧
    (∀ (t : String) (hh mm : Int),
      t ≠ "" →
      (splitNums ':' t).getD 0 none = some hh →
      (splitNums ':' t).getD 1 none = some mm →
      (isPastAppointment n ds (some t) = true ↔
        (daysFromCivil y m d < daysFromCivil n.y n.m n.d ∨
          (daysFromCivil y m d = daysFromCivil n.y n.m n.d ∧
            daysFromCivil y m d * 1440 + (hh * 60 + mm) < nowMinutes n)))) :=
  isPast_eq n ds y m d hval hsplit hy hm1 hm2 hd1 hd2

/-- C6 witness: with now fixed at 2025-06-15 09:30, the appointment date
2020-01-01 is past with no time given, and also with the time 23:59. -/
theorem c6_isPast_spec_witness :
    isPastAppointment ⟨2025, 6, 15, 9, 30⟩ "2020-01-01" none = true ∧
    isPastAppointment ⟨2025, 6, 15, 9, 30⟩ "2020-01-01" (some "23:59") = true :=
  ⟨(c6_isPast_spec ⟨2025, 6, 15, 9, 30⟩ "2020-01-01" 2020 1 1 (by decide) (by decide)
      (by decide) (by decide) (by decide) (by decide) (by decide)).1.mpr (by decide),
    ((c6_isPast_spec ⟨2025, 6, 15, 9, 30⟩ "2020-01-01" 2020 1 1 (by decide) (by decide)
      (by decide) (by decide) (by decide) (by decide) (by decide)).2 "23:59" 23 59
      (by decide) (by decide) (by decide)).mpr (Or.inl (by decide))⟩

/-- C7 counterexample: for an appointment dated yesterday (today is
2025-03-10), `canCheckIn` is false, yet the `MyQueue` check-in handler still
issues the network call — it performs no client-side eligibility check. -/
theorem c7_counterexample :
    canCheckIn ⟨2025, 3, 10, 12, 0⟩
      ⟨9, "T9", "new_id", "2025-03-09", "09:00", "scheduled"⟩ = false ∧
    networkCalled (myQueueHandleCheckIn 9) = true := by
  constructor <;> decide

/-- C7 (amended): in `Appointments.tsx`/`Dashboard.tsx` the handler rejects
client-side with no network call whenever the appointment is missing or
`canCheckIn` fails; in `MyQueue` the guard exists only in the render (the
button appears exactly under the `canCheckIn` conjunction) while the handler
itself unconditionally issues the call. -/
theorem c7_checkin_guard :
    (∀ (n : Now) (appts : List Appointment) (k : Nat),
      (∀ a, appts.find? (fun x => x.id == k) = some a → canCheckIn n a = false) →
      networkCalled (handleCheckIn n appts k) = false) ∧
    (∀ (n : Now) (a : Appointment),
      myQueueShowsCheckIn n a
        = (a.status == "scheduled" && myQueueIsToday n a.appointment_date &&
            !myQueueIsPast n a.appointment_date (some a.scheduled_time))) ∧
    (∀ k, myQueueHandleCheckIn k = CheckInOutcome.callApi k) := by
  refine ⟨?_, fun _ _ => rfl, fun _ => rfl⟩
  intro n appts k h
  unfold handleCheckIn
  cases hfind : appts.find? (fun x => x.id == k) with
  | none => rfl
  | some a =>
    have hc := h a hfind
    simp only [hc, Bool.not_false]
    rw [if_pos trivial]
    split_ifs <;> rfl

/-- C7 witness: the page handler rejects the yesterday-dated appointment
without any network call. -/
theorem c7_checkin_guard_witness :
    networkCalled (handleCheckIn ⟨2025, 3, 10, 12, 0⟩
      [⟨9, "T9", "new_id", "2025-03-09", "09:00", "scheduled"⟩] 9) = false :=
  c7_checkin_guard.1 ⟨2025, 3, 10, 12, 0⟩
    [⟨9, "T9", "new_id", "2025-03-09", "09:00", "scheduled"⟩] 9
    (by intro a hfa; cases hfa; decide)

/-- C8 counterexample: a cancel failure whose payload carries the string
detail "Slot already closed" surfaces the fixed message
"Failed to cancel appointment" — not the normalized (kept-as-is) string the
claim requires. -/
theorem c8_counterexample :
    cancelFailureToast (some (ErrorDetail.strD "Slot already closed"))
      = JsVal.jstr "Failed to cancel appointment" ∧
    specNormalizeDetail (ErrorDetail.strD "Slot already closed") = "Slot already closed" ∧
    JsVal.jstr "Failed to cancel appointment" ≠ JsVal.jstr "Slot already closed" := by
  refine ⟨rfl, rfl, by decide⟩

/-- C8 (amended): cancel failures surface a fixed generic message regardless
of the payload; check-in failures surface the raw `detail` value when truthy —
which coincides with the spec's normalization only in the string case — pass a
list or object through unconverted, and fall back to a generic message when
the detail is absent or an empty string. -/
theorem c8_error_surface (p : Option ErrorDetail) (s msg : String) (l : List String) :
    cancelFailureToast p = JsVal.jstr "Failed to cancel appointment" ∧
    (s ≠ "" → checkInFailureToast (some (ErrorDetail.strD s))
      = JsVal.jstr (specNormalizeDetail (ErrorDetail.strD s))) ∧
    checkInFailureToast (some (ErrorDetail.listD l)) = JsVal.jarr l ∧
    checkInFailureToast (some (ErrorDetail.objD msg)) = JsVal.jobjMsg msg ∧
    checkInFailureToast none = JsVal.jstr "Failed to check in. Please try again." := by
  refine ⟨rfl, ?_, rfl, rfl, rfl⟩
  intro hs
  simp [checkInFailureToast, detailTruthy, detailToVal, specNormalizeDetail, hs]

/-- C8 witness: a truthy string detail on check-in is shown as-is. -/
theorem c8_error_surface_witness :
    checkInFailureToast (some (ErrorDetail.strD "Slot full")) = JsVal.jstr "Slot full" :=
  (c8_error_surface none "Slot full" "" []).2.1 (by decide)

/-- C9 counterexample: "2026-02-14-junk" is not a well-formed `YYYY-MM-DD`
string, yet `isToday` treats it as 2026-02-14 (extra components are silently
dropped) and returns true on that day — unparseable data does not fail
closed. -/
theorem c9_counterexample :
    isToday ⟨2026, 2, 14, 12, 0⟩ "2026-02-14-junk" = true := by
  decide

/-- A list element on which the predicate fails survives `dropWhile`. -/
theorem mem_dropWhile_of_neg (p : Char → Bool) (l : List Char) (x : Char)
    (hx : x ∈ l) (hpx : p x = false) : x ∈ l.dropWhile p := by
  induction l with
  | nil => cases hx
  | cons a t ih =>
    rw [List.dropWhile_cons]
    by_cases hpa : p a = true
    · rw [if_pos hpa]
      rcases List.mem_cons.mp hx with h | h
      · subst h
        rw [hpx] at hpa
        cases hpa
      · exact ih h
    · rw [if_neg hpa]
      exact hx

/-- Splitting never produces the empty list of pieces. -/
theorem splitCharList_ne_nil (sep : Char) (l : List Char) :
    splitCharList sep l ≠ [] := by
  cases l with
  | nil => simp [splitCharList]
  | cons c rest =>
    dsimp only [splitCharList]
    split_ifs
    · simp
    · cases hsc : splitCharList sep rest <;> simp [hsc]

/-- `jsSplit` never produces the empty list of pieces. -/
theorem jsSplit_ne_nil (s : String) (sep : Char) : jsSplit s sep ≠ [] := by
  unfold jsSplit
  intro h
  exact splitCharList_ne_nil sep s.data (List.map_eq_nil_iff.mp h)

/-- A component that contains no digit and at least one character outside the
ECMAScript whitespace set fails `Number` conversion: after trimming, a
character remains, and whether or not a sign leads, the remaining characters
contain no digit, so the conversion yields `NaN`. -/
theorem jsNum_no_digit (s : String)
    (hnd : s.data.any (fun c => c.isDigit) = false)
    (hnw : s.data.all (fun c => jsWhitespace c) = false) :
    jsNum s = none := by
  have hndAll : ∀ c ∈ s.data, c.isDigit = false := by
    simpa [List.any_eq_false] using hnd
  obtain ⟨x, hxmem, hxw⟩ : ∃ x ∈ s.data, jsWhitespace x = false := by
    simp only [List.all_eq_false] at hnw
    obtain ⟨x, hx1, hx2⟩ := hnw
    exact ⟨x, hx1, by simp [hx2]⟩
  have hsub : ∀ c ∈ jsTrim s.data, c ∈ s.data := by
    intro c hc
    unfold jsTrim at hc
    have h1 := List.mem_reverse.mp hc
    have h2 := (List.dropWhile_sublist _).mem h1
    have h3 := List.mem_reverse.mp h2
    exact (List.dropWhile_sublist _).mem h3
  have hxt : x ∈ jsTrim s.data := by
    unfold jsTrim
    refine List.mem_reverse.mpr ?_
    refine mem_dropWhile_of_neg _ _ _ ?_ hxw
    refine List.mem_reverse.mpr ?_
    exact mem_dropWhile_of_neg _ _ _ hxmem hxw
  have hne : jsTrim s.data ≠ [] := by
    intro h
    rw [h] at hxt
    cases hxt
  obtain ⟨c, rest, hcons⟩ := List.exists_cons_of_ne_nil hne
  have hcd : c.isDigit = false := hndAll c (hsub c (hcons ▸ List.mem_cons_self c rest))
  unfold jsNum
  rw [hcons]
  dsimp only
  by_cases hplus : c = '+'
  · rw [if_pos hplus]
    cases hrest : rest with
    | nil => simp
    | cons c1 r1 =>
      rw [if_neg (by simp [hrest])]
      have hc1 : c1.isDigit = false := hndAll c1 (hsub c1 (by
        rw [hcons, hrest]
        exact List.mem_cons_of_mem _ (List.mem_cons_self _ _)))
      simp [hrest, digitsValAux, hc1]
  · rw [if_neg hplus]
    by_cases hminus : c = '-'
    · rw [if_pos hminus]
      cases hrest : rest with
      | nil => simp
      | cons c1 r1 =>
        rw [if_neg (by simp [hrest])]
        have hc1 : c1.isDigit = false := hndAll c1 (hsub c1 (by
          rw [hcons, hrest]
          exact List.mem_cons_of_mem _ (List.mem_cons_self _ _)))
        simp [hrest, digitsValAux, hc1]
    · rw [if_neg hminus]
      simp [digitsValAux, hcd]

/-- C9 (amended): the evaluators never throw, and they do return false whenever
the date string is empty or its leading `-`-separated component is a genuinely
unconvertible string — one containing no digit and at least one character
outside `Number`'s trimmed whitespace (such components convert to `NaN`, or to
an infinity that invalidates the date just the same); but well-formedness is
not otherwise checked — padding and signs are accepted, trailing junk
components are ignored, and out-of-range components roll over, so some
non-`YYYY-MM-DD` strings still count as today. -/
theorem c9_fail_closed (n : Now) (ds : String) (ts : Option String)
    (hval : n.valid)
    (h : ds = "" ∨
      (((jsSplit ds '-').getD 0 "").data.any (fun c => c.isDigit) = false ∧
        ((jsSplit ds '-').getD 0 "").data.all (fun c => jsWhitespace c) = false)) :
    isToday n ds = false ∧ isPastAppointment n ds ts = false ∧
      myQueueIsToday n ds = false := by
  obtain ⟨hny, -⟩ := hval
  rcases h with h | ⟨hnd, hnw⟩
  · subst h
    refine ⟨rfl, rfl, ?_⟩
    show decide (civilFromDays (jsDateDays 0 (jsOr1 none - 1) (jsOr1 none)) = (n.y, n.m, n.d))
      = false
    rw [decide_eq_false_iff_not]
    intro heq
    rw [show civilFromDays (jsDateDays 0 (jsOr1 none - 1) (jsOr1 none)) = (1900, 1, 1)
      from by decide] at heq
    rw [Prod.mk.injEq, Prod.mk.injEq] at heq
    omega
  · have hne : ds ≠ "" := by
      intro hds
      subst hds
      exact absurd hnw (by decide)
    obtain ⟨c0, cs, hcons⟩ := List.exists_cons_of_ne_nil (jsSplit_ne_nil ds '-')
    have hc0 : (jsSplit ds '-').getD 0 "" = c0 := by rw [hcons]; rfl
    have hnum : jsNum c0 = none := jsNum_no_digit c0 (hc0 ▸ hnd) (hc0 ▸ hnw)
    have hget : (splitNums '-' ds).getD 0 none = none := by
      unfold splitNums
      rw [hcons]
      simpa using hnum
    refine ⟨?_, ?_, ?_⟩
    · unfold isToday
      rw [if_neg hne, hget]
    · unfold isPastAppointment
      rw [if_neg hne, hget]
    · unfold myQueueIsToday
      rw [hget]

/-- C9 witness: a plainly unparseable (digit-free) date string fails closed in
all three evaluators. -/
theorem c9_fail_closed_witness :
    isToday ⟨2025, 3, 10, 12, 0⟩ "garbage" = false ∧
    isPastAppointment ⟨2025, 3, 10, 12, 0⟩ "garbage" (some "09:00") = false ∧
    myQueueIsToday ⟨2025, 3, 10, 12, 0⟩ "garbage" = false :=
  c9_fail_closed ⟨2025, 3, 10, 12, 0⟩ "garbage" (some "09:00") (by decide)
    (Or.inr ⟨by decide, by decide⟩)

/-- C10: the response interceptor always re-raises the error unchanged, and
it clears the token and redirects to `/login` exactly when the response
status is 401, leaving the browser state untouched otherwise. -/
theorem c10_interceptor_spec (b : Browser) (e : ApiError) :
    (handleResponseError b e).2 = Except.error e ∧
    (handleResponseError b e).1.token = (if e.status = some 401 then none else b.token) ∧
    (handleResponseError b e).1.location
      = (if e.status = some 401 then "/login" else b.location) := by
  unfold handleResponseError
  by_cases h : e.status = some 401 <;> simp [h]
